import Mathlib

/-!
Shallow embedding of the Flynn controller client
(controller/client/client.go): the request executor rawReq with its
status-to-error classification, the SSE job-event decode loop, the
StreamFormations RPC stream constructor, and NewClient construction.
External capabilities (the HTTP round trip, JSON marshal and decode,
the dial function, the RPC handshake) are passed in as function
parameters, mirroring the Go code which delegates to net/http,
encoding/json, net.Dial and rpcplus.
-/

/-- Byte strings are modelled as lists of naturals (each below 256). -/
abbrev Bytes := List Nat

/-- An http.Header, modelled as an association list of key and value.
Go header values are lists, but this client only ever uses Set and Get,
which operate on a single value per key. -/
abbrev Headers := List (String × String)

/-- Models http.Header.Get: the value for the key, or the empty string
when the key is unset. -/
def hGet (h : Headers) (k : String) : String :=
  (h.lookup k).getD ""

/-- Models http.Header.Set: replaces any existing entries for the key. -/
def hSet (h : Headers) (k v : String) : Headers :=
  (k, v) :: h.filter (fun p => p.1 != k)

/-- UTF-8 encoding of a single code point, as Go does when converting a
string to a byte slice. -/
def charUtf8 (c : Char) : List Nat :=
  let n := c.toNat
  if n < 128 then [n]
  else if n < 2048 then [192 + n / 64, 128 + n % 64]
  else if n < 65536 then [224 + n / 4096, 128 + n / 64 % 64, 128 + n % 64]
  else [240 + n / 262144, 128 + n / 4096 % 64, 128 + n / 64 % 64, 128 + n % 64]

/-- The UTF-8 bytes of a string (Go byte-slice conversion). -/
def utf8Bytes (s : String) : List Nat :=
  (s.data.map charUtf8).flatten

/-- The standard base64 alphabet used by encoding/base64 StdEncoding. -/
def b64Alphabet : String :=
  "ABCDEFGHIJKLMNOPQRSTUVWXYZabcdefghijklmnopqrstuvwxyz0123456789+/"

/-- The base64 digit for a 6-bit value. -/
def b64Char (n : Nat) : Char :=
  b64Alphabet.data.getD n 'A'

/-- Models encoding/base64 StdEncoding.Encode on a byte list, with the
usual padding of the final group. -/
def b64Encode : List Nat → List Char
  | [] => []
  | [a] => [b64Char (a / 4), b64Char (a % 4 * 16), '=', '=']
  | [a, b] => [b64Char (a / 4), b64Char (a % 4 * 16 + b / 16), b64Char (b % 16 * 4), '=']
  | a :: b :: c :: rest =>
      b64Char (a / 4) :: b64Char (a % 4 * 16 + b / 16) :: b64Char (b % 16 * 4 + c / 64) ::
        b64Char (c % 64) :: b64Encode rest

/-- Models encoding/base64 StdEncoding.EncodeToString applied to the
UTF-8 bytes of a string. -/
def base64String (s : String) : String :=
  String.mk (b64Encode (utf8Bytes s))

/-- An HTTP response as far as rawReq inspects it: the status code and
the raw body bytes. -/
structure HttpResponse where
  statusCode : Nat
  body : Bytes
deriving DecidableEq

/-- An HTTP request as rawReq builds it: method, full URL, headers and
optional body payload. -/
structure HttpRequest where
  method : String
  url : String
  header : Headers
  body : Option Bytes
deriving DecidableEq

/-- The in parameter of rawReq. The Go code inspects the dynamic type
of in (io.Reader, nil, or any other value); following the source switch
this is a three-way tagged union. -/
inductive ReqIn (β : Type) where
  | reader (bs : Bytes)
  | empty
  | value (v : β)

/-- The error values rawReq can return, one constructor per source of
error in the Go function: the ErrNotFound sentinel, a decoded
ValidationError returned as the error itself, a json decode error, a
json.Marshal error from toJSON, a transport error from HTTP.Do, and the
url.Error wrapper built for unexpected status codes (carrying Op, URL
and the status). -/
inductive CtrlError (V : Type) where
  | notFound
  | validation (v : V)
  | decodeErr (msg : String)
  | marshalErr (msg : String)
  | netErr (msg : String)
  | statusErr (op : String) (url : String) (code : Nat)
deriving DecidableEq

/-- The Error string of the url.Error built on the unexpected-status
path: Op, a space, the URL, a colon and space, then the inner message. -/
def urlErrorMessage (op url errText : String) : String :=
  op ++ " " ++ url ++ ": " ++ errText

/-- The inner fmt.Errorf message for an unexpected status code. -/
def unexpectedStatusText (code : Nat) : String :=
  "controller: unexpected status " ++ Nat.repr code

/-- The full message of the generic status error returned by rawReq. -/
def statusErrMessage (op url : String) (code : Nat) : String :=
  urlErrorMessage op url (unexpectedStatusText code)

/-- One string occurs inside another (substring as a decomposition). -/
def strIncludes (s t : String) : Prop :=
  ∃ a b, s = a ++ t ++ b

/-- The observable outcome of one rawReq call: the request handed to
HTTP.Do (none when the call aborted before sending), the response
received (none when HTTP.Do failed or was not reached), the returned
error, whether res.Body.Close was called, and the value decoded into
out on the success path. -/
structure RawReqOutcome (V ω : Type) where
  sentReq : Option HttpRequest
  resp : Option HttpResponse
  err : Option (CtrlError V)
  bodyClosed : Bool
  outVal : Option ω
deriving DecidableEq

/-- The header pipeline of rawReq: start from the caller header (a nil
header becomes a fresh one), set Content-Type to application/json when
unset, then SetBasicAuth with empty username and the key as password,
which writes the Authorization header Basic base64(":"+key). -/
def buildHeader (header : Option Headers) (key : String) : Headers :=
  let h0 := header.getD []
  let h1 := if hGet h0 "Content-Type" = "" then hSet h0 "Content-Type" "application/json" else h0
  hSet h1 "Authorization" ("Basic " ++ base64String (":" ++ key))

/-- The request rawReq hands to HTTP.Do: http.NewRequest on the method,
the concatenated c.url+path and the payload, followed by the header
assignment req.Header = header and SetBasicAuth. The URL-parse failure
mode of http.NewRequest is not modelled: it is never hit by the claims,
all of which presuppose the request was executed. -/
def builtReq (curl key method path : String) (header : Option Headers)
    (payload : Option Bytes) : HttpRequest :=
  { method := method, url := curl ++ path, header := buildHeader header key,
    body := payload }

/-- The status-classification tail of rawReq, applied once HTTP.Do has
returned a response: 404 closes the body and returns ErrNotFound; 400
decodes the body as a ValidationError (the decoded value is returned as
the error, a decode failure returns the decode error), closing the body
either way; any other non-200 closes the body and returns the url.Error
carrying method, URL and status; 200 decodes the body into out and
closes it when out was supplied, and otherwise returns the response
with the body left open. -/
def respond {V ω : Type} (req : HttpRequest) (outTarget : Bool)
    (decodeV : Bytes → Except String V) (decodeOut : Bytes → Except String ω)
    (res : HttpResponse) : RawReqOutcome V ω :=
  if res.statusCode = 404 then
    { sentReq := some req, resp := some res, err := some .notFound,
      bodyClosed := true, outVal := none }
  else if res.statusCode = 400 then
    match decodeV res.body with
    | .error e =>
        { sentReq := some req, resp := some res, err := some (.decodeErr e),
          bodyClosed := true, outVal := none }
    | .ok v =>
        { sentReq := some req, resp := some res, err := some (.validation v),
          bodyClosed := true, outVal := none }
  else if res.statusCode ≠ 200 then
    { sentReq := some req, resp := some res,
      err := some (.statusErr req.method req.url res.statusCode),
      bodyClosed := true, outVal := none }
  else if outTarget then
    match decodeOut res.body with
    | .error e =>
        { sentReq := some req, resp := some res, err := some (.decodeErr e),
          bodyClosed := true, outVal := none }
    | .ok w =>
        { sentReq := some req, resp := some res, err := none,
          bodyClosed := true, outVal := some w }
  else
    { sentReq := some req, resp := some res, err := none,
      bodyClosed := false, outVal := none }

/-- Models Client.rawReq. The payload comes from the in parameter
(an io.Reader passes through, nil gives no body, any other value is
json.Marshal-ed via toJSON with a marshal failure aborting the call);
the request is built with c.url+path and the header pipeline; HTTP.Do
performs the round trip; the response is classified by respond.
http.NewRequest is modelled as the plain construction of the request
record: its URL-parse failure mode is never hit by the claims, all of
which presuppose a request was executed. -/
def rawReq {β V ω : Type} (curl key method path : String) (header : Option Headers)
    (inp : ReqIn β) (outTarget : Bool)
    (marshal : β → Except String Bytes)
    (httpDo : HttpRequest → Except String HttpResponse)
    (decodeV : Bytes → Except String V)
    (decodeOut : Bytes → Except String ω) : RawReqOutcome V ω :=
  let payloadRes : Except String (Option Bytes) :=
    match inp with
    | .reader bs => .ok (some bs)
    | .empty => .ok none
    | .value v =>
      match marshal v with
      | .ok bs => .ok (some bs)
      | .error e => .error e
  match payloadRes with
  | .error e =>
      { sentReq := none, resp := none, err := some (.marshalErr e),
        bodyClosed := false, outVal := none }
  | .ok payload =>
    let req : HttpRequest := builtReq curl key method path header payload
    match httpDo req with
    | .error e =>
        { sentReq := some req, resp := none, err := some (.netErr e),
          bodyClosed := false, outVal := none }
    | .ok res => respond req outTarget decodeV decodeOut res

/-- Models bytes.HasPrefix(line, []byte("data: ")) on a line of the
event stream (ASCII, so the byte test is the character test). -/
def hasDataPrefix (line : String) : Bool :=
  "data: ".data.isPrefixOf line.data

/-- Models bytes.TrimPrefix(line, []byte("data: ")) on a line that has
the prefix: the first six bytes are dropped. -/
def stripDataPrefix (line : String) : String :=
  String.mk (line.data.drop 6)

/-- Models sseDecoder.Decode. The response body is modelled as the list
of newline-terminated chunks bufio.Reader.ReadBytes returns, each chunk
kept with its trailing newline; the final ReadBytes at end of stream
returns an error, modelled by the empty list. Decode skips chunks until
one has the prefix "data: ", strips the prefix (bytes.TrimPrefix, six
bytes) and decodes the remainder (newline included, which the JSON
decoder tolerates as trailing whitespace) with the supplied decoder d,
standing for json.Unmarshal into the target type. The result is the
decoded event and the remaining body, or none when the read or the
decode fails. -/
def sseDecode {ε : Type} (d : String → Option ε) : List String → Option (ε × List String)
  | [] => none
  | line :: rest =>
    if hasDataPrefix line then
      match d (stripDataPrefix line) with
      | some v => some (v, rest)
      | none => none
    else sseDecode d rest

/-- The goroutine body of StreamJobEvents, with the call to Decode
inlined so that the recursion is structural: on a data chunk that
decodes, the event is published and the loop continues; a decode
failure or the end of the body terminates the loop. The agreement of
this fused form with repeated calls to sseDecode is proved in
jobEventLoop_eq_decode. -/
def jobEventLoop {ε : Type} (d : String → Option ε) : List String → List ε
  | [] => []
  | line :: rest =>
    if hasDataPrefix line then
      match d (stripDataPrefix line) with
      | some v => v :: jobEventLoop d rest
      | none => []
    else jobEventLoop d rest

/-- What the consumer of a JobEventStream observes once the producer
goroutine has finished: the events published to the channel, in order,
and whether the channel was closed (the goroutine defers
close(stream.Events)). -/
structure JobEventStreamOutcome (ε : Type) where
  events : List ε
  chanClosed : Bool
deriving DecidableEq

/-- The full behaviour of the StreamJobEvents producer goroutine on a
finite body: it publishes the events jobEventLoop yields and then the
deferred close of the channel runs. -/
def streamJobEventsBody {ε : Type} (d : String → Option ε) (lines : List String) :
    JobEventStreamOutcome ε :=
  { events := jobEventLoop d lines, chanClosed := true }

/-- A network connection, identified by an id, together with the error
its Close method would report. -/
structure Conn where
  id : Nat
  closeErr : Option String
deriving DecidableEq

/-- The observable result of an rpcplus StreamGo session feeding the
channel: the records pushed (in wire order) and the final value of the
Error field of the call. -/
structure RpcSession (φ : Type) where
  records : List φ
  callErr : Option String
deriving DecidableEq

/-- The FormationUpdates handle: the consumer channel (whether it has
been closed with no producer attached, and the records the producer
delivers) and the connection the handle owns (none models the nil conn
returned by a failed dial). -/
structure FormationUpdates (φ : Type) where
  chanClosed : Bool
  chanRecords : List φ
  conn : Option Conn
deriving DecidableEq

/-- Models FormationUpdates.Close: a nil connection returns nil
immediately; otherwise the owned connection is closed and its close
error returned. The first component records which connection was
closed (none when Close was a no-op). -/
def FormationUpdates.Close {φ : Type} (u : FormationUpdates φ) : Option Conn × Option String :=
  match u.conn with
  | none => (none, none)
  | some c => (some c, c.closeErr)

/-- Everything observable about one StreamFormations call: the handle
returned (the Go function always returns a non-nil pointer, so the
handle is always present), the error returned alongside it, the header
passed to rpcplus.NewHTTPClient (none when the dial failed first), and
the since argument passed to StreamGo (none when the call never reached
StreamGo). -/
structure StreamFormationsResult (φ : Type) where
  handle : FormationUpdates φ
  err : Option String
  sentHeader : Option Headers
  sentArg : Option Int
deriving DecidableEq

/-- The epoch time.Unix(0, 0), as nanoseconds since the epoch. -/
def unixEpoch : Int := 0

/-- The header StreamFormations builds for the RPC handshake: exactly
one entry, Authorization set to Basic base64(":"+key). -/
def streamAuthHeader (key : String) : Headers :=
  hSet [] "Authorization" ("Basic " ++ base64String (":" ++ key))

/-- Models Client.StreamFormations. A nil since is replaced by the
epoch. The dial capability is invoked as dial "tcp" addr (net.Dial or
the configured c.dial); on failure the channel is closed at once and
the handle is returned with a nil conn alongside the error. Otherwise
the auth header is built and the handshake capability (standing for
rpcplus.NewHTTPClient) runs on the connection; on handshake failure
the channel is again closed and the handle (now owning the conn) is
returned with the error. On success StreamGo is invoked with the since
argument and the channel carries the records the session pushes, with
the Error field of the call returned. -/
def StreamFormations {φ : Type} (key addr : String)
    (dial : String → String → Except String Conn)
    (handshake : Conn → Headers → Except String (RpcSession φ))
    (since : Option Int) : StreamFormationsResult φ :=
  let sinceArg : Int := match since with | none => unixEpoch | some t => t
  match dial "tcp" addr with
  | .error e =>
      { handle := { chanClosed := true, chanRecords := [], conn := none },
        err := some e, sentHeader := none, sentArg := none }
  | .ok conn =>
    let header := streamAuthHeader key
    match handshake conn header with
    | .error e =>
        { handle := { chanClosed := true, chanRecords := [], conn := some conn },
          err := some e, sentHeader := some header, sentArg := none }
    | .ok sess =>
        { handle := { chanClosed := false, chanRecords := sess.records, conn := some conn },
          err := sess.callErr, sentHeader := some header, sentArg := some sinceArg }

/-- A parsed URI of the shape scheme://host, which is the shape of
every URI NewClient is given here. Models the fields of net/url.URL
that NewClient reads and writes. -/
structure ParsedURL where
  scheme : String
  host : String
deriving DecidableEq

/-- Splits a character list at the first occurrence of the
scheme separator, yielding the characters before and after it. -/
def splitScheme : List Char → Option (List Char × List Char)
  | [] => none
  | ':' :: '/' :: '/' :: rest => some ([], rest)
  | c :: rest =>
    match splitScheme rest with
    | some (a, b) => some (c :: a, b)
    | none => none

/-- Models url.Parse restricted to scheme://host URIs, which is the
shape of every URI this client constructor handles: split at the
scheme separator; a URI without one is a parse failure. -/
def parseURL (s : String) : Option ParsedURL :=
  match splitScheme s.data with
  | some (sch, host) => some { scheme := String.mk sch, host := String.mk host }
  | none => none

/-- The dial strategy stored in a client. -/
inductive DialKind where
  | discovery
  | pinned
deriving DecidableEq

/-- The fields of the Client record that NewClient fills in: the stored
URL, the host address, the key, the dial function installed on the
client (none means the zero value, so net.Dial is used by streams), the
dial function installed on the HTTP transport (none means
http.DefaultClient), and whether a dialer closer was stored for
Client.Close to release. -/
structure ClientState where
  url : String
  addr : String
  key : String
  dial : Option DialKind
  transportDial : Option DialKind
  dialCloseStored : Bool
deriving DecidableEq

/-- Models NewClient. An empty uri defaults to
discoverd+http://flynn-controller; the uri is parsed and the client
built with the uri as stored URL and the host as addr. When the scheme
is discoverd+http, the process-wide discoverd.Connect runs (a failure
aborts construction), the discovery dialer is installed both as c.dial
and as the transport dial of a fresh HTTP client, the dialer is stored
for Close, and the URL is rewritten with the plain http scheme. -/
def NewClient (uri0 key : String) (connect : Except String Unit) :
    Except String ClientState :=
  let uri := if uri0 = "" then "discoverd+http://flynn-controller" else uri0
  match parseURL uri with
  | none => .error "url parse error"
  | some u =>
    let base : ClientState :=
      { url := uri, addr := u.host, key := key, dial := none,
        transportDial := none, dialCloseStored := false }
    if u.scheme = "discoverd+http" then
      match connect with
      | .error e => .error e
      | .ok _ =>
          .ok { base with
                  dial := some .discovery, transportDial := some .discovery,
                  dialCloseStored := true, url := "http://" ++ u.host }
    else .ok base

/-- Two strings are equal when their character data is equal. -/
theorem strEq_of_data {a b : String} (h : a.data = b.data) : a = b := by
  cases a
  cases b
  exact congrArg String.mk h

/-- The fused jobEventLoop agrees with the source shape of the
goroutine: one sseDecoder.Decode step, publish on success, stop on
error. -/
theorem jobEventLoop_eq_decode {ε : Type} (d : String → Option ε) (lines : List String) :
    jobEventLoop d lines =
      (match sseDecode d lines with
       | none => []
       | some (v, rest) => v :: jobEventLoop d rest) := by
  induction lines with
  | nil => simp [jobEventLoop, sseDecode]
  | cons l ls ih =>
    by_cases h : hasDataPrefix l
    · simp only [jobEventLoop, sseDecode, h, if_true]
      cases d (stripDataPrefix l) <;> simp
    · simp only [jobEventLoop, sseDecode, h, if_false, Bool.false_eq_true]
      exact ih

/-- Reading a key that hSet just wrote yields the written value. -/
theorem hGet_hSet_same (h : Headers) (k v : String) : hGet (hSet h k v) k = v := by
  simp [hGet, hSet, List.lookup]

/-- Filtering out another key does not change a lookup. -/
theorem lookup_filter_ne (h : Headers) (k k' : String) (hne : k' ≠ k) :
    List.lookup k' (h.filter fun p => p.1 != k) = List.lookup k' h := by
  induction h with
  | nil => rfl
  | cons p t ih =>
    obtain ⟨pk, pv⟩ := p
    by_cases hp : pk = k
    · have h1 : (pk != k) = false := by simp [hp]
      have h2 : (k' == pk) = false := by
        rw [hp]
        exact beq_eq_false_iff_ne.mpr hne
      simp [List.filter_cons, h1, List.lookup, h2, ih]
    · have h1 : (pk != k) = true := bne_iff_ne.mpr hp
      cases hk : (k' == pk) <;>
        simp [List.filter_cons, h1, List.lookup, hk, ih]

/-- Reading a different key after hSet yields the original value. -/
theorem hGet_hSet_ne (h : Headers) (k v k' : String) (hne : k' ≠ k) :
    hGet (hSet h k v) k' = hGet h k' := by
  have : (k' == k) = false := by simp [hne]
  simp [hGet, hSet, List.lookup, this, lookup_filter_ne h k k' hne]

/-- The header pipeline always ends with the basic-auth credential in
the Authorization header. -/
theorem buildHeader_auth (header : Option Headers) (key : String) :
    hGet (buildHeader header key) "Authorization" =
      "Basic " ++ base64String (":" ++ key) := by
  unfold buildHeader
  exact hGet_hSet_same _ _ _

/-- The header pipeline leaves Content-Type at the caller value when
one was given and defaults it to application/json otherwise. -/
theorem buildHeader_contentType (header : Option Headers) (key : String) :
    hGet (buildHeader header key) "Content-Type" =
      (if hGet (header.getD []) "Content-Type" = "" then "application/json"
       else hGet (header.getD []) "Content-Type") := by
  unfold buildHeader
  rw [hGet_hSet_ne _ _ _ _ (by decide)]
  by_cases hc : hGet (header.getD []) "Content-Type" = ""
  · simp [hc, hGet_hSet_same]
  · simp [hc]

/-- respond always reports the response it classified. -/
theorem respond_resp {V ω : Type} (req : HttpRequest) (outT : Bool)
    (dV : Bytes → Except String V) (dO : Bytes → Except String ω) (res : HttpResponse) :
    (respond req outT dV dO res).resp = some res := by
  by_cases h4 : res.statusCode = 404
  · simp [respond, h4]
  · by_cases h0 : res.statusCode = 400
    · cases hv : dV res.body <;> simp [respond, h4, h0, hv]
    · by_cases h2 : res.statusCode = 200
      · cases outT
        · simp [respond, h4, h0, h2]
        · cases ho : dO res.body <;> simp [respond, h4, h0, h2, ho]
      · simp [respond, h4, h0, h2]

/-- respond always reports the request it was given as sent. -/
theorem respond_sentReq {V ω : Type} (req : HttpRequest) (outT : Bool)
    (dV : Bytes → Except String V) (dO : Bytes → Except String ω) (res : HttpResponse) :
    (respond req outT dV dO res).sentReq = some req := by
  by_cases h4 : res.statusCode = 404
  · simp [respond, h4]
  · by_cases h0 : res.statusCode = 400
    · cases hv : dV res.body <;> simp [respond, h4, h0, hv]
    · by_cases h2 : res.statusCode = 200
      · cases outT
        · simp [respond, h4, h0, h2]
        · cases ho : dO res.body <;> simp [respond, h4, h0, h2, ho]
      · simp [respond, h4, h0, h2]

/-- Exhaustive description of one rawReq run: either the payload
marshal failed and nothing was sent, or the request was built from the
method, the concatenated URL and the header pipeline, and HTTP.Do
either failed or returned a response that respond classified. -/
theorem rawReq_run {β V ω : Type} (curl key method path : String) (header : Option Headers)
    (inp : ReqIn β) (outT : Bool)
    (marshal : β → Except String Bytes)
    (httpDo : HttpRequest → Except String HttpResponse)
    (dV : Bytes → Except String V) (dO : Bytes → Except String ω) :
    (∃ v e, inp = ReqIn.value v ∧ marshal v = .error e ∧
      rawReq curl key method path header inp outT marshal httpDo dV dO =
        { sentReq := none, resp := none, err := some (.marshalErr e),
          bodyClosed := false, outVal := none }) ∨
    (∃ payload,
      (inp = ReqIn.empty ∧ payload = none ∨
       (∃ bs, inp = ReqIn.reader bs ∧ payload = some bs) ∨
       (∃ v bs, inp = ReqIn.value v ∧ marshal v = .ok bs ∧ payload = some bs)) ∧
      ((∃ e, httpDo (builtReq curl key method path header payload) = .error e ∧
          rawReq curl key method path header inp outT marshal httpDo dV dO =
            { sentReq := some (builtReq curl key method path header payload),
              resp := none, err := some (.netErr e),
              bodyClosed := false, outVal := none }) ∨
       (∃ res, httpDo (builtReq curl key method path header payload) = .ok res ∧
          rawReq curl key method path header inp outT marshal httpDo dV dO =
            respond (builtReq curl key method path header payload) outT dV dO res))) := by
  rcases inp with bs | _ | v
  · refine Or.inr ⟨some bs, Or.inr (Or.inl ⟨bs, rfl, rfl⟩), ?_⟩
    cases hdo : httpDo (builtReq curl key method path header (some bs)) with
    | error e => exact Or.inl ⟨e, rfl, by simp [rawReq, hdo]⟩
    | ok res => exact Or.inr ⟨res, rfl, by simp [rawReq, hdo]⟩
  · refine Or.inr ⟨none, Or.inl ⟨rfl, rfl⟩, ?_⟩
    cases hdo : httpDo (builtReq curl key method path header none) with
    | error e => exact Or.inl ⟨e, rfl, by simp [rawReq, hdo]⟩
    | ok res => exact Or.inr ⟨res, rfl, by simp [rawReq, hdo]⟩
  · cases hm : marshal v with
    | error e => exact Or.inl ⟨v, e, rfl, hm, by simp [rawReq, hm]⟩
    | ok bs =>
      refine Or.inr ⟨some bs, Or.inr (Or.inr ⟨v, bs, rfl, hm, rfl⟩), ?_⟩
      cases hdo : httpDo (builtReq curl key method path header (some bs)) with
      | error e => exact Or.inl ⟨e, rfl, by simp [rawReq, hm, hdo]⟩
      | ok res => exact Or.inr ⟨res, rfl, by simp [rawReq, hm, hdo]⟩

/-- C1: for every event-stream body of newline-terminated lines whose
data lines all decode, the decode loop of StreamJobEvents delivers to
the consumer channel exactly the decoded payloads of the lines with the
"data: " marker, in wire order, skipping all other lines, and the
channel is closed when the body ends. -/
theorem streamJobEvents_data_lines {ε : Type} (d : String → Option ε) (lines : List String)
    (hdec : ∀ l ∈ lines, hasDataPrefix l = true → (d (stripDataPrefix l)).isSome = true) :
    streamJobEventsBody d lines =
      { events := (lines.filter hasDataPrefix).filterMap (fun l => d (stripDataPrefix l)),
        chanClosed := true } := by
  unfold streamJobEventsBody
  have hev : jobEventLoop d lines =
      (lines.filter hasDataPrefix).filterMap (fun l => d (stripDataPrefix l)) := by
    induction lines with
    | nil => simp [jobEventLoop]
    | cons l ls ih =>
      have hl := hdec l (by simp)
      have hls : ∀ x ∈ ls, hasDataPrefix x = true → (d (stripDataPrefix x)).isSome = true :=
        fun x hx => hdec x (by simp [hx])
      by_cases h : hasDataPrefix l
      · obtain ⟨v, hv⟩ := Option.isSome_iff_exists.mp (hl h)
        simp [jobEventLoop, h, hv, ih hls, List.filter_cons, List.filterMap_cons]
      · simp [jobEventLoop, h, ih hls, List.filter_cons, List.filterMap_cons]
  rw [hev]

/-- A record type standing for the decoded JSON object with the single
field a, used to instantiate the stream decoder on concrete payloads. -/
structure JsonA where
  a : Nat
deriving DecidableEq

/-- A concrete decoder capability for the two payloads of the C1
example, with the behaviour json.Unmarshal has on them (the trailing
newline is tolerated as whitespace). -/
def decodeJsonA (s : String) : Option JsonA :=
  if s = "\x7b\"a\":1\x7d\n" then some { a := 1 }
  else if s = "\x7b\"a\":2\x7d\n" then some { a := 2 }
  else none

/-- The example body of C1: a data line, a blank separator line, and a
second data line, each newline-terminated. -/
def exBodyLines : List String :=
  ["data: \x7b\"a\":1\x7d\n", "\n", "data: \x7b\"a\":2\x7d\n"]

/-- Witness for C1: on the example body the consumer receives exactly
the two decoded values in order and the channel is closed. -/
theorem streamJobEvents_data_lines_witness :
    (∀ l ∈ exBodyLines, hasDataPrefix l = true → (decodeJsonA (stripDataPrefix l)).isSome = true) ∧
    streamJobEventsBody decodeJsonA exBodyLines =
      { events := [{ a := 1 }, { a := 2 }], chanClosed := true } :=
  ⟨by decide,
   (streamJobEvents_data_lines decodeJsonA exBodyLines (by decide)).trans (by decide)⟩

/-- C2: when the dial step of StreamFormations fails, a handle is still
returned alongside the error, its consumer channel is already closed
and yields no records, and Close on it is a no-op that succeeds without
error; when the dial succeeds, the handle owns the connection and Close
closes that connection. -/
theorem streamFormations_close_contract {φ : Type} (key addr : String)
    (dial : String → String → Except String Conn)
    (handshake : Conn → Headers → Except String (RpcSession φ))
    (since : Option Int) :
    (∀ e, dial "tcp" addr = .error e →
      (StreamFormations key addr dial handshake since).err = some e ∧
      (StreamFormations key addr dial handshake since).handle.chanClosed = true ∧
      (StreamFormations key addr dial handshake since).handle.chanRecords = [] ∧
      (StreamFormations key addr dial handshake since).handle.Close = (none, none)) ∧
    (∀ conn, dial "tcp" addr = .ok conn →
      (StreamFormations key addr dial handshake since).handle.conn = some conn ∧
      (StreamFormations key addr dial handshake since).handle.Close =
        (some conn, conn.closeErr)) := by
  constructor
  · intro e he
    simp [StreamFormations, he, FormationUpdates.Close]
  · intro conn hc
    cases hh : handshake conn (streamAuthHeader key) <;>
      simp [StreamFormations, hc, hh, FormationUpdates.Close]

/-- Witness for C2: a failing dial still yields a handle with a closed
empty channel whose Close returns no error, and a succeeding dial
yields a handle whose Close closes the dialed connection. -/
theorem streamFormations_close_contract_witness :
    ((StreamFormations (φ := Unit) "k" "a1" (fun _ _ => .error "dial refused")
        (fun _ _ => .error "hs") none).err = some "dial refused" ∧
     (StreamFormations (φ := Unit) "k" "a1" (fun _ _ => .error "dial refused")
        (fun _ _ => .error "hs") none).handle.chanClosed = true ∧
     (StreamFormations (φ := Unit) "k" "a1" (fun _ _ => .error "dial refused")
        (fun _ _ => .error "hs") none).handle.chanRecords = [] ∧
     (StreamFormations (φ := Unit) "k" "a1" (fun _ _ => .error "dial refused")
        (fun _ _ => .error "hs") none).handle.Close = (none, none)) ∧
    ((StreamFormations (φ := Unit) "k" "a1" (fun _ _ => .ok { id := 3, closeErr := none })
        (fun _ _ => .ok { records := [], callErr := none }) none).handle.conn =
          some { id := 3, closeErr := none } ∧
     (StreamFormations (φ := Unit) "k" "a1" (fun _ _ => .ok { id := 3, closeErr := none })
        (fun _ _ => .ok { records := [], callErr := none }) none).handle.Close =
          (some { id := 3, closeErr := none }, none)) :=
  ⟨(streamFormations_close_contract "k" "a1" (fun _ _ => .error "dial refused")
      (fun _ _ => .error "hs") none).1 "dial refused" rfl,
   (streamFormations_close_contract "k" "a1" (fun _ _ => .ok { id := 3, closeErr := none })
      (fun _ _ => .ok { records := [], callErr := none }) none).2
        { id := 3, closeErr := none } rfl⟩

/-- C9: whenever StreamFormations reaches the StreamGo invocation, the
since argument transmitted is the caller cursor when one was given and
the epoch time.Unix(0,0) when the cursor was nil. -/
theorem streamFormations_since_arg {φ : Type} (key addr : String)
    (dial : String → String → Except String Conn)
    (handshake : Conn → Headers → Except String (RpcSession φ))
    (since : Option Int) (conn : Conn) (sess : RpcSession φ)
    (hd : dial "tcp" addr = .ok conn)
    (hh : handshake conn (streamAuthHeader key) = .ok sess) :
    (StreamFormations key addr dial handshake since).sentArg =
      some (since.getD unixEpoch) := by
  cases since <;> simp [StreamFormations, hd, hh, Option.getD]

/-- Witness for C9: with a cursor of 42 the transmitted argument is 42,
and with no cursor it is the epoch. -/
theorem streamFormations_since_arg_witness :
    (StreamFormations (φ := Unit) "k" "a2" (fun _ _ => .ok { id := 0, closeErr := none })
      (fun _ _ => .ok { records := [], callErr := none }) (some 42)).sentArg = some 42 ∧
    (StreamFormations (φ := Unit) "k" "a2" (fun _ _ => .ok { id := 0, closeErr := none })
      (fun _ _ => .ok { records := [], callErr := none }) none).sentArg = some unixEpoch :=
  ⟨streamFormations_since_arg "k" "a2" (fun _ _ => .ok { id := 0, closeErr := none })
      (fun _ _ => .ok { records := [], callErr := none }) (some 42)
      { id := 0, closeErr := none } { records := [], callErr := none } rfl rfl,
   streamFormations_since_arg "k" "a2" (fun _ _ => .ok { id := 0, closeErr := none })
      (fun _ _ => .ok { records := [], callErr := none }) none
      { id := 0, closeErr := none } { records := [], callErr := none } rfl rfl⟩

/-- C3: every request execution whose response has status 404 returns
the ErrNotFound sentinel, whatever the body holds, and closes the
response body before returning. -/
theorem rawReq_notFound {β V ω : Type} (curl key method path : String)
    (header : Option Headers) (inp : ReqIn β) (outT : Bool)
    (marshal : β → Except String Bytes)
    (httpDo : HttpRequest → Except String HttpResponse)
    (dV : Bytes → Except String V) (dO : Bytes → Except String ω) (res : HttpResponse)
    (h : (rawReq curl key method path header inp outT marshal httpDo dV dO).resp = some res)
    (h404 : res.statusCode = 404) :
    (rawReq curl key method path header inp outT marshal httpDo dV dO).err =
      some CtrlError.notFound ∧
    (rawReq curl key method path header inp outT marshal httpDo dV dO).bodyClosed = true := by
  rcases rawReq_run curl key method path header inp outT marshal httpDo dV dO with
    ⟨v, e, _, _, heq⟩ | ⟨payload, _, ⟨e, hdo, heq⟩ | ⟨r, hdo, heq⟩⟩
  · rw [heq] at h
    simp at h
  · rw [heq] at h
    simp at h
  · rw [heq] at h ⊢
    rw [respond_resp] at h
    injection h with h
    subst h
    constructor <;> simp [respond, h404]

/-- Witness for C3: a 404 response with a nonempty body yields
ErrNotFound and a closed body. -/
theorem rawReq_notFound_witness :
    (rawReq (β := Unit) (V := Unit) (ω := Unit) "http://c" "k" "GET" "/x" none ReqIn.empty false
        (fun _ => .ok []) (fun _ => .ok { statusCode := 404, body := [9] })
        (fun _ => .error "v") (fun _ => .error "o")).err = some CtrlError.notFound ∧
    (rawReq (β := Unit) (V := Unit) (ω := Unit) "http://c" "k" "GET" "/x" none ReqIn.empty false
        (fun _ => .ok []) (fun _ => .ok { statusCode := 404, body := [9] })
        (fun _ => .error "v") (fun _ => .error "o")).bodyClosed = true :=
  rawReq_notFound "http://c" "k" "GET" "/x" none ReqIn.empty false
    (fun _ => .ok []) (fun _ => .ok { statusCode := 404, body := [9] })
    (fun _ => .error "v") (fun _ => .error "o") { statusCode := 404, body := [9] }
    (by decide) (by decide)

/-- C4: every request execution whose response has status 400 decodes
the body as a ValidationError: a well-formed body makes the decoded
value itself the returned error, a malformed body makes the decode
error the returned error, and the body is closed in both cases. -/
theorem rawReq_validation {β V ω : Type} (curl key method path : String)
    (header : Option Headers) (inp : ReqIn β) (outT : Bool)
    (marshal : β → Except String Bytes)
    (httpDo : HttpRequest → Except String HttpResponse)
    (dV : Bytes → Except String V) (dO : Bytes → Except String ω) (res : HttpResponse)
    (h : (rawReq curl key method path header inp outT marshal httpDo dV dO).resp = some res)
    (h400 : res.statusCode = 400) :
    (rawReq curl key method path header inp outT marshal httpDo dV dO).bodyClosed = true ∧
    (∀ v, dV res.body = .ok v →
      (rawReq curl key method path header inp outT marshal httpDo dV dO).err =
        some (CtrlError.validation v)) ∧
    (∀ m, dV res.body = .error m →
      (rawReq curl key method path header inp outT marshal httpDo dV dO).err =
        some (CtrlError.decodeErr m)) := by
  rcases rawReq_run curl key method path header inp outT marshal httpDo dV dO with
    ⟨v, e, _, _, heq⟩ | ⟨payload, _, ⟨e, hdo, heq⟩ | ⟨r, hdo, heq⟩⟩
  · rw [heq] at h
    simp at h
  · rw [heq] at h
    simp at h
  · rw [heq] at h ⊢
    rw [respond_resp] at h
    injection h with h
    subst h
    refine ⟨?_, ?_, ?_⟩
    · cases hv : dV r.body <;> simp [respond, h400, hv]
    · intro v hv
      simp [respond, h400, hv]
    · intro m hm
      simp [respond, h400, hm]

/-- Witness for C4: a 400 response with a body the decoder accepts
yields that decoded value as the error, and one the decoder rejects
yields the decode error; the body is closed. -/
theorem rawReq_validation_witness :
    ((rawReq (β := Unit) (V := String) (ω := Unit) "http://c" "k" "POST" "/y" none ReqIn.empty false
        (fun _ => .ok []) (fun _ => .ok { statusCode := 400, body := [1] })
        (fun b => if b = [1] then .ok "bad field" else .error "malformed")
        (fun _ => .error "o")).bodyClosed = true ∧
     (rawReq (β := Unit) (V := String) (ω := Unit) "http://c" "k" "POST" "/y" none ReqIn.empty false
        (fun _ => .ok []) (fun _ => .ok { statusCode := 400, body := [1] })
        (fun b => if b = [1] then .ok "bad field" else .error "malformed")
        (fun _ => .error "o")).err = some (CtrlError.validation "bad field")) ∧
    (rawReq (β := Unit) (V := String) (ω := Unit) "http://c" "k" "POST" "/y" none ReqIn.empty false
        (fun _ => .ok []) (fun _ => .ok { statusCode := 400, body := [2] })
        (fun b => if b = [1] then .ok "bad field" else .error "malformed")
        (fun _ => .error "o")).err = some (CtrlError.decodeErr "malformed") :=
  ⟨⟨(rawReq_validation "http://c" "k" "POST" "/y" none ReqIn.empty false
      (fun _ => .ok []) (fun _ => .ok { statusCode := 400, body := [1] })
      (fun b => if b = [1] then .ok "bad field" else .error "malformed")
      (fun _ => .error "o") { statusCode := 400, body := [1] } (by decide) (by decide)).1,
    (rawReq_validation "http://c" "k" "POST" "/y" none ReqIn.empty false
      (fun _ => .ok []) (fun _ => .ok { statusCode := 400, body := [1] })
      (fun b => if b = [1] then .ok "bad field" else .error "malformed")
      (fun _ => .error "o") { statusCode := 400, body := [1] } (by decide) (by decide)).2.1
      "bad field" rfl⟩,
   (rawReq_validation "http://c" "k" "POST" "/y" none ReqIn.empty false
      (fun _ => .ok []) (fun _ => .ok { statusCode := 400, body := [2] })
      (fun b => if b = [1] then .ok "bad field" else .error "malformed")
      (fun _ => .error "o") { statusCode := 400, body := [2] } (by decide) (by decide)).2.2
      "malformed" rfl⟩

/-- C5: every request execution whose response status is none of 200,
400 or 404 closes the body and returns the generic url.Error whose
message includes the HTTP method, the full request URL and the decimal
status code. -/
theorem rawReq_generic_status {β V ω : Type} (curl key method path : String)
    (header : Option Headers) (inp : ReqIn β) (outT : Bool)
    (marshal : β → Except String Bytes)
    (httpDo : HttpRequest → Except String HttpResponse)
    (dV : Bytes → Except String V) (dO : Bytes → Except String ω) (res : HttpResponse)
    (h : (rawReq curl key method path header inp outT marshal httpDo dV dO).resp = some res)
    (h200 : res.statusCode ≠ 200) (h400 : res.statusCode ≠ 400) (h404 : res.statusCode ≠ 404) :
    (rawReq curl key method path header inp outT marshal httpDo dV dO).err =
      some (CtrlError.statusErr method (curl ++ path) res.statusCode) ∧
    (rawReq curl key method path header inp outT marshal httpDo dV dO).bodyClosed = true ∧
    strIncludes (statusErrMessage method (curl ++ path) res.statusCode) method ∧
    strIncludes (statusErrMessage method (curl ++ path) res.statusCode) (curl ++ path) ∧
    strIncludes (statusErrMessage method (curl ++ path) res.statusCode)
      (Nat.repr res.statusCode) := by
  rcases rawReq_run curl key method path header inp outT marshal httpDo dV dO with
    ⟨v, e, _, _, heq⟩ | ⟨payload, _, ⟨e, hdo, heq⟩ | ⟨r, hdo, heq⟩⟩
  · rw [heq] at h
    simp at h
  · rw [heq] at h
    simp at h
  · rw [heq] at h ⊢
    rw [respond_resp] at h
    injection h with h
    subst h
    refine ⟨?_, ?_, ?_, ?_, ?_⟩
    · simp [respond, h200, h400, h404, builtReq]
    · simp [respond, h200, h400, h404]
    · exact ⟨"", " " ++ (curl ++ path) ++ ": " ++ unexpectedStatusText r.statusCode, by
        simp only [statusErrMessage, urlErrorMessage, String.append_assoc, String.empty_append]⟩
    · exact ⟨method ++ " ", ": " ++ unexpectedStatusText r.statusCode, by
        simp only [statusErrMessage, urlErrorMessage, String.append_assoc]⟩
    · exact ⟨method ++ " " ++ (curl ++ path) ++ ": " ++ "controller: unexpected status ", "", by
        simp only [statusErrMessage, urlErrorMessage, unexpectedStatusText,
          String.append_assoc, String.append_empty]⟩

/-- Witness for C5: a 500 response yields the generic error carrying
method, URL and code, the body is closed, and the rendered message is
the expected full string. -/
theorem rawReq_generic_status_witness :
    (rawReq (β := Unit) (V := Unit) (ω := Unit) "http://c" "k" "GET" "/x" none ReqIn.empty false
        (fun _ => .ok []) (fun _ => .ok { statusCode := 500, body := [] })
        (fun _ => .error "v") (fun _ => .error "o")).err =
      some (CtrlError.statusErr "GET" ("http://c" ++ "/x") 500) ∧
    (rawReq (β := Unit) (V := Unit) (ω := Unit) "http://c" "k" "GET" "/x" none ReqIn.empty false
        (fun _ => .ok []) (fun _ => .ok { statusCode := 500, body := [] })
        (fun _ => .error "v") (fun _ => .error "o")).bodyClosed = true ∧
    statusErrMessage "GET" ("http://c" ++ "/x") 500 =
      "GET http://c/x: controller: unexpected status 500" :=
  ⟨(rawReq_generic_status "http://c" "k" "GET" "/x" none ReqIn.empty false
      (fun _ => .ok []) (fun _ => .ok { statusCode := 500, body := [] })
      (fun _ => .error "v") (fun _ => .error "o") { statusCode := 500, body := [] }
      (by decide) (by decide) (by decide) (by decide)).1,
   (rawReq_generic_status "http://c" "k" "GET" "/x" none ReqIn.empty false
      (fun _ => .ok []) (fun _ => .ok { statusCode := 500, body := [] })
      (fun _ => .error "v") (fun _ => .error "o") { statusCode := 500, body := [] }
      (by decide) (by decide) (by decide) (by decide)).2.1,
   by decide⟩

/-- C6: every request rawReq sends carries the Basic credential with
empty username and the key as password in its Authorization header, and
a Content-Type of application/json exactly when the caller did not
supply one; the StreamFormations handshake carries the same credential
as the explicit header Authorization: Basic base64(":"+key). -/
theorem rawReq_auth_headers {β V ω : Type} (curl key method path : String)
    (header : Option Headers) (inp : ReqIn β) (outT : Bool)
    (marshal : β → Except String Bytes)
    (httpDo : HttpRequest → Except String HttpResponse)
    (dV : Bytes → Except String V) (dO : Bytes → Except String ω) (req : HttpRequest)
    (h : (rawReq curl key method path header inp outT marshal httpDo dV dO).sentReq = some req) :
    hGet req.header "Authorization" = "Basic " ++ base64String (":" ++ key) ∧
    hGet req.header "Content-Type" =
      (if hGet (header.getD []) "Content-Type" = "" then "application/json"
       else hGet (header.getD []) "Content-Type") ∧
    streamAuthHeader key = [("Authorization", "Basic " ++ base64String (":" ++ key))] ∧
    (∀ (φ : Type) (addr : String) (dial : String → String → Except String Conn)
       (handshake : Conn → Headers → Except String (RpcSession φ))
       (since : Option Int) (conn : Conn), dial "tcp" addr = .ok conn →
       (StreamFormations key addr dial handshake since).sentHeader =
         some (streamAuthHeader key)) := by
  have hreq : req.header = buildHeader header key := by
    rcases rawReq_run curl key method path header inp outT marshal httpDo dV dO with
      ⟨v, e, _, _, heq⟩ | ⟨payload, _, ⟨e, hdo, heq⟩ | ⟨r, hdo, heq⟩⟩
    · rw [heq] at h
      simp at h
    · rw [heq] at h
      simp at h
      rw [← h]
      rfl
    · rw [heq] at h
      rw [respond_sentReq] at h
      injection h with h
      rw [← h]
      rfl
  refine ⟨?_, ?_, ?_, ?_⟩
  · rw [hreq]
    exact buildHeader_auth header key
  · rw [hreq]
    exact buildHeader_contentType header key
  · rfl
  · intro φ addr dial handshake since conn hc
    cases hh : handshake conn (streamAuthHeader key) <;>
      simp [StreamFormations, hc, hh]

/-- Witness for C6: a concrete request carries the expected Basic
credential and the default content type, and a concrete
StreamFormations handshake receives exactly the auth header. -/
theorem rawReq_auth_headers_witness :
    hGet (builtReq "http://c" "k" "GET" "/p" none none).header "Authorization" =
      "Basic " ++ base64String (":" ++ "k") ∧
    hGet (builtReq "http://c" "k" "GET" "/p" none none).header "Content-Type" =
      "application/json" ∧
    streamAuthHeader "k" = [("Authorization", "Basic " ++ base64String (":" ++ "k"))] ∧
    (StreamFormations (φ := Unit) "k" "a3" (fun _ _ => .ok { id := 0, closeErr := none })
      (fun _ _ => .ok { records := [], callErr := none }) none).sentHeader =
        some (streamAuthHeader "k") := by
  have H := rawReq_auth_headers (β := Unit) (V := Unit) (ω := Unit)
    "http://c" "k" "GET" "/p" none ReqIn.empty false
    (fun _ => .ok []) (fun _ => .ok { statusCode := 200, body := [] })
    (fun _ => .error "v") (fun _ => .error "o")
    (builtReq "http://c" "k" "GET" "/p" none none) (by decide)
  exact ⟨H.1, H.2.1.trans (by decide), H.2.2.1,
    H.2.2.2 Unit "a3" (fun _ _ => .ok { id := 0, closeErr := none })
      (fun _ _ => .ok { records := [], callErr := none }) none
      { id := 0, closeErr := none } rfl⟩

/-- C7: the request payload follows the shape of the input value: a raw
byte stream is passed through unchanged, an absent input produces no
body, any other value is serialized to its JSON encoding, and a marshal
failure aborts the call before anything is sent. -/
theorem rawReq_payload_shape {β V ω : Type} (curl key method path : String)
    (header : Option Headers) (outT : Bool)
    (marshal : β → Except String Bytes)
    (httpDo : HttpRequest → Except String HttpResponse)
    (dV : Bytes → Except String V) (dO : Bytes → Except String ω) :
    (∀ bs, ((rawReq curl key method path header (ReqIn.reader bs) outT marshal httpDo
        dV dO).sentReq.map HttpRequest.body) = some (some bs)) ∧
    (((rawReq curl key method path header ReqIn.empty outT marshal httpDo
        dV dO).sentReq.map HttpRequest.body) = some none) ∧
    (∀ v bs, marshal v = .ok bs →
      ((rawReq curl key method path header (ReqIn.value v) outT marshal httpDo
          dV dO).sentReq.map HttpRequest.body) = some (some bs)) ∧
    (∀ v e, marshal v = .error e →
      rawReq curl key method path header (ReqIn.value v) outT marshal httpDo dV dO =
        { sentReq := none, resp := none, err := some (CtrlError.marshalErr e),
          bodyClosed := false, outVal := none }) := by
  refine ⟨?_, ?_, ?_, ?_⟩
  · intro bs
    cases hdo : httpDo (builtReq curl key method path header (some bs)) with
    | error e =>
      simp only [builtReq] at hdo
      simp [rawReq, builtReq, hdo]
    | ok r =>
      simp only [builtReq] at hdo
      simp [rawReq, builtReq, hdo, respond_sentReq]
  · cases hdo : httpDo (builtReq curl key method path header none) with
    | error e =>
      simp only [builtReq] at hdo
      simp [rawReq, builtReq, hdo]
    | ok r =>
      simp only [builtReq] at hdo
      simp [rawReq, builtReq, hdo, respond_sentReq]
  · intro v bs hm
    cases hdo : httpDo (builtReq curl key method path header (some bs)) with
    | error e =>
      simp only [builtReq] at hdo
      simp [rawReq, builtReq, hm, hdo]
    | ok r =>
      simp only [builtReq] at hdo
      simp [rawReq, builtReq, hm, hdo, respond_sentReq]
  · intro v e hm
    simp [rawReq, hm]

/-- Witness for C7: a raw byte input passes through as the body, an
absent input sends no body, a value is sent as its encoding, and a
failing marshal aborts with nothing sent. -/
theorem rawReq_payload_shape_witness :
    ((rawReq (V := Unit) (ω := Unit) "http://c" "k" "PUT" "/z" none (ReqIn.reader [5, 6]) false
        (fun s : String => if s = "good" then .ok [1, 2] else .error "bad value")
        (fun _ => .ok { statusCode := 200, body := [] })
        (fun _ => .error "v") (fun _ => .error "o")).sentReq.map HttpRequest.body) =
      some (some [5, 6]) ∧
    ((rawReq (β := String) (V := Unit) (ω := Unit) "http://c" "k" "PUT" "/z" none ReqIn.empty false
        (fun s : String => if s = "good" then .ok [1, 2] else .error "bad value")
        (fun _ => .ok { statusCode := 200, body := [] })
        (fun _ => .error "v") (fun _ => .error "o")).sentReq.map HttpRequest.body) =
      some none ∧
    ((rawReq (V := Unit) (ω := Unit) "http://c" "k" "PUT" "/z" none (ReqIn.value "good") false
        (fun s : String => if s = "good" then .ok [1, 2] else .error "bad value")
        (fun _ => .ok { statusCode := 200, body := [] })
        (fun _ => .error "v") (fun _ => .error "o")).sentReq.map HttpRequest.body) =
      some (some [1, 2]) ∧
    (rawReq (V := Unit) (ω := Unit) "http://c" "k" "PUT" "/z" none (ReqIn.value "oops") false
        (fun s : String => if s = "good" then .ok [1, 2] else .error "bad value")
        (fun _ => .ok { statusCode := 200, body := [] })
        (fun _ => .error "v") (fun _ => .error "o")) =
      { sentReq := none, resp := none, err := some (CtrlError.marshalErr "bad value"),
        bodyClosed := false, outVal := none } := by
  have H := rawReq_payload_shape (β := String) (V := Unit) (ω := Unit)
    "http://c" "k" "PUT" "/z" none false
    (fun s : String => if s = "good" then .ok [1, 2] else .error "bad value")
    (fun _ => .ok { statusCode := 200, body := [] })
    (fun _ => .error "v") (fun _ => .error "o")
  exact ⟨H.1 [5, 6], H.2.1, H.2.2.1 "good" [1, 2] rfl, H.2.2.2 "oops" "bad value" rfl⟩

/-- C8: every request execution whose response has status 200 decodes
the JSON body into the supplied target and closes the body when a
target was given, and returns the response with the body still open
when none was given. -/
theorem rawReq_success_decode {β V ω : Type} (curl key method path : String)
    (header : Option Headers) (inp : ReqIn β) (outT : Bool)
    (marshal : β → Except String Bytes)
    (httpDo : HttpRequest → Except String HttpResponse)
    (dV : Bytes → Except String V) (dO : Bytes → Except String ω) (res : HttpResponse)
    (h : (rawReq curl key method path header inp outT marshal httpDo dV dO).resp = some res)
    (h200 : res.statusCode = 200) :
    (outT = false →
      (rawReq curl key method path header inp outT marshal httpDo dV dO).err = none ∧
      (rawReq curl key method path header inp outT marshal httpDo dV dO).bodyClosed = false ∧
      (rawReq curl key method path header inp outT marshal httpDo dV dO).resp = some res) ∧
    (outT = true →
      (rawReq curl key method path header inp outT marshal httpDo dV dO).bodyClosed = true ∧
      (∀ w, dO res.body = .ok w →
        (rawReq curl key method path header inp outT marshal httpDo dV dO).outVal = some w ∧
        (rawReq curl key method path header inp outT marshal httpDo dV dO).err = none)) := by
  rcases rawReq_run curl key method path header inp outT marshal httpDo dV dO with
    ⟨v, e, _, _, heq⟩ | ⟨payload, _, ⟨e, hdo, heq⟩ | ⟨r, hdo, heq⟩⟩
  · rw [heq] at h
    simp at h
  · rw [heq] at h
    simp at h
  · rw [heq] at h ⊢
    rw [respond_resp] at h
    injection h with h
    subst h
    constructor
    · intro ho
      subst ho
      simp [respond, h200]
    · intro ho
      subst ho
      refine ⟨?_, ?_⟩
      · cases hw : dO r.body <;> simp [respond, h200, hw]
      · intro w hw
        simp [respond, h200, hw]

/-- Witness for C8: without a target the response comes back with an
open body and no error; with a target the decoded value is stored and
the body closed. -/
theorem rawReq_success_decode_witness :
    ((rawReq (β := Unit) (V := Unit) (ω := String) "http://c" "k" "GET" "/q" none ReqIn.empty false
        (fun _ => .ok []) (fun _ => .ok { statusCode := 200, body := [3] })
        (fun _ => .error "v") (fun b => if b = [3] then .ok "w" else .error "x")).err = none ∧
     (rawReq (β := Unit) (V := Unit) (ω := String) "http://c" "k" "GET" "/q" none ReqIn.empty false
        (fun _ => .ok []) (fun _ => .ok { statusCode := 200, body := [3] })
        (fun _ => .error "v") (fun b => if b = [3] then .ok "w" else .error "x")).bodyClosed =
          false ∧
     (rawReq (β := Unit) (V := Unit) (ω := String) "http://c" "k" "GET" "/q" none ReqIn.empty false
        (fun _ => .ok []) (fun _ => .ok { statusCode := 200, body := [3] })
        (fun _ => .error "v") (fun b => if b = [3] then .ok "w" else .error "x")).resp =
          some { statusCode := 200, body := [3] }) ∧
    ((rawReq (β := Unit) (V := Unit) (ω := String) "http://c" "k" "GET" "/q" none ReqIn.empty true
        (fun _ => .ok []) (fun _ => .ok { statusCode := 200, body := [3] })
        (fun _ => .error "v") (fun b => if b = [3] then .ok "w" else .error "x")).bodyClosed =
          true ∧
     (rawReq (β := Unit) (V := Unit) (ω := String) "http://c" "k" "GET" "/q" none ReqIn.empty true
        (fun _ => .ok []) (fun _ => .ok { statusCode := 200, body := [3] })
        (fun _ => .error "v") (fun b => if b = [3] then .ok "w" else .error "x")).outVal =
          some "w" ∧
     (rawReq (β := Unit) (V := Unit) (ω := String) "http://c" "k" "GET" "/q" none ReqIn.empty true
        (fun _ => .ok []) (fun _ => .ok { statusCode := 200, body := [3] })
        (fun _ => .error "v") (fun b => if b = [3] then .ok "w" else .error "x")).err = none) := by
  have HA := rawReq_success_decode (β := Unit) (V := Unit) (ω := String)
    "http://c" "k" "GET" "/q" none ReqIn.empty false
    (fun _ => .ok []) (fun _ => .ok { statusCode := 200, body := [3] })
    (fun _ => .error "v") (fun b => if b = [3] then .ok "w" else .error "x")
    { statusCode := 200, body := [3] } (by decide) (by decide)
  have HB := rawReq_success_decode (β := Unit) (V := Unit) (ω := String)
    "http://c" "k" "GET" "/q" none ReqIn.empty true
    (fun _ => .ok []) (fun _ => .ok { statusCode := 200, body := [3] })
    (fun _ => .error "v") (fun b => if b = [3] then .ok "w" else .error "x")
    { statusCode := 200, body := [3] } (by decide) (by decide)
  exact ⟨HA.1 rfl, (HB.2 rfl).1, ((HB.2 rfl).2 "w" rfl).1, ((HB.2 rfl).2 "w" rfl).2⟩

/-- C10: constructing a client with an empty URI succeeds (given a
reachable registry): the URI defaults to
discoverd+http://flynn-controller, the discovery dial strategy is
installed on the client and on the HTTP transport, the dialer is stored
for Close, and the stored URL is rewritten to the plain http scheme. -/
theorem newClient_default_uri (key : String) :
    NewClient "" key (.ok ()) =
      .ok { url := "http://flynn-controller", addr := "flynn-controller", key := key,
            dial := some DialKind.discovery, transportDial := some DialKind.discovery,
            dialCloseStored := true } := rfl
